import Mathlib

/-!
Verification development for the brand-generation pipeline of the
AI-Brand-Creator repository (directory `01-mvp-monolith/api`).

The Python sources embedded here:
  * `api/models/brand.py`   : request/response data model and validation,
  * `api/services/brand_service.py` : the six-stage generation pipeline,
  * `api/routes/brand.py`   : the HTTP route glue and the status accessor.

Machine floats of the source are modelled as rationals; images and the
external diffusion / upscaling / colour-extraction capabilities are
modelled as environment parameters (the source consumes them as opaque
capabilities).  Exceptions are modelled with `Except String`.
-/

namespace BrandCreator

/-! ## Enumerations (api/models/brand.py lines 10-57).
`Config.use_enum_values = True` in the source means requests carry the
string values; `value` gives that string. -/

inductive Industry
  | technology | healthcare | education | finance | retail | food
  | fashion | automotive | realEstate | consulting | creative | other
deriving DecidableEq, Repr

def Industry.value : Industry → String
  | .technology => "technology"
  | .healthcare => "healthcare"
  | .education => "education"
  | .finance => "finance"
  | .retail => "retail"
  | .food => "food"
  | .fashion => "fashion"
  | .automotive => "automotive"
  | .realEstate => "real-estate"
  | .consulting => "consulting"
  | .creative => "creative"
  | .other => "other"

inductive LogoStyle
  | minimal | geometric | textBased | symbolic | abstractStyle | classic
deriving DecidableEq, Repr

def LogoStyle.value : LogoStyle → String
  | .minimal => "minimal"
  | .geometric => "geometric"
  | .textBased => "text-based"
  | .symbolic => "symbolic"
  | .abstractStyle => "abstract"
  | .classic => "classic"

inductive ColorScheme
  | warm | cool | neutral | vibrant
deriving DecidableEq, Repr

def ColorScheme.value : ColorScheme → String
  | .warm => "warm"
  | .cool => "cool"
  | .neutral => "neutral"
  | .vibrant => "vibrant"

inductive TargetAudience
  | youngAdults | professionals | families | seniors | businesses | globalSeg
deriving DecidableEq, Repr

def TargetAudience.value : TargetAudience → String
  | .youngAdults => "young-adults"
  | .professionals => "professionals"
  | .families => "families"
  | .seniors => "seniors"
  | .businesses => "businesses"
  | .globalSeg => "global"

inductive PersonalityTrait
  | professional | creative | friendly | modern | trustworthy | innovative
deriving DecidableEq, Repr

def PersonalityTrait.value : PersonalityTrait → String
  | .professional => "professional"
  | .creative => "creative"
  | .friendly => "friendly"
  | .modern => "modern"
  | .trustworthy => "trustworthy"
  | .innovative => "innovative"

/-! ## BrandRequest (api/models/brand.py lines 59-88) -/

structure BrandRequest where
  business_name : String
  industry : Industry
  style : LogoStyle
  color_scheme : ColorScheme
  personality_traits : List PersonalityTrait
  target_audience : TargetAudience
  prompt : String
  negative_prompt : String
  additional_notes : Option String
  num_logos : Nat
  num_variations : Nat
deriving Repr

/-- Python `str.strip()`: drop leading and trailing whitespace. -/
def pyStrip (s : String) : String :=
  ⟨((s.data.dropWhile Char.isWhitespace).reverse.dropWhile Char.isWhitespace).reverse⟩

/-- Accumulator walk behind `pyWords`: `cur` holds the reversed
characters of the word in progress. -/
def wordsAux (cur : List Char) : List Char → List (List Char)
  | [] => if cur.isEmpty then [] else [cur.reverse]
  | c :: cs =>
    if c.isWhitespace then
      if cur.isEmpty then wordsAux [] cs else cur.reverse :: wordsAux [] cs
    else wordsAux (c :: cur) cs

/-- Python `str.split()` with no separator: maximal runs of
non-whitespace characters (empty pieces dropped). -/
def pyWords (s : String) : List String :=
  (wordsAux [] s.data).map (fun w => ⟨w⟩)

/-- Pydantic validation of `BrandRequest` (field constraints plus the two
custom validators at api/models/brand.py lines 75-85).  Errors are the
validator messages; the resulting request has `business_name` stripped,
as `validate_business_name` returns `v.strip()`. -/
def validateBrandRequest (r : BrandRequest) : Except String BrandRequest :=
  if r.business_name.length < 1 ∨ r.business_name.length > 100 then
    .error "business_name length out of range"
  else if pyStrip r.business_name = "" then
    .error "Business name cannot be empty"
  else if r.personality_traits.length < 1 ∨ r.personality_traits.length > 6 then
    .error "personality_traits size out of range"
  else if r.prompt.length < 10 ∨ r.prompt.length > 2000 then
    .error "prompt length out of range"
  else if (pyWords r.prompt).length < 3 then
    .error "Prompt must contain at least 3 words"
  else if r.negative_prompt.length < 5 ∨ r.negative_prompt.length > 1000 then
    .error "negative_prompt length out of range"
  else if r.additional_notes.any (fun n => n.length > 500) then
    .error "additional_notes too long"
  else if r.num_logos < 1 ∨ r.num_logos > 5 then
    .error "num_logos out of range"
  else if r.num_variations < 1 ∨ r.num_variations > 3 then
    .error "num_variations out of range"
  else
    .ok { r with business_name := pyStrip r.business_name }

/-! ## Per-logo generation seed (brand_service.py line 321):
`seed = (hash(request.business_name) + i * 1000) % 2**32`.
Python `hash` is an arbitrary integer-valued string hash (fixed within a
process), so it is a parameter; Python `%` on a positive modulus is
`Int.emod`. -/

def sdSeed (pyHash : String → ℤ) (businessName : String) (i : ℕ) : ℤ :=
  (pyHash businessName + (i : ℤ) * 1000) % (2 ^ 32 : ℤ)

/-! ## Color palette stage (brand_service.py lines 799-856) -/

structure ColorPalette where
  primary : String
  secondary : String
  accent : String
  neutral : String
  colors : List String
deriving Repr, DecidableEq

/-- Stage 2, `_generate_color_palette`: pure lookup in `palette_map` keyed by the
request's color scheme (the `.get` default is the "neutral" entry, which
a validated scheme never reaches; the match below covers the same four
keys as the source dict). -/
def generate_color_palette (scheme : ColorScheme) : ColorPalette :=
  match scheme with
  | .warm =>
      { primary := "#D2691E", secondary := "#CC5500", accent := "#FFB000",
        neutral := "#8B4513",
        colors := ["#D2691E", "#CC5500", "#FFB000", "#8B4513"] }
  | .cool =>
      { primary := "#4A90E2", secondary := "#357ABD", accent := "#2E86C1",
        neutral := "#708090",
        colors := ["#4A90E2", "#357ABD", "#2E86C1", "#708090"] }
  | .neutral =>
      { primary := "#6B6B6B", secondary := "#8B8B8B", accent := "#A0A0A0",
        neutral := "#D3D3D3",
        colors := ["#6B6B6B", "#8B8B8B", "#A0A0A0", "#D3D3D3"] }
  | .vibrant =>
      { primary := "#FF6B6B", secondary := "#4ECDC4", accent := "#45B7D1",
        neutral := "#95A5A6",
        colors := ["#FF6B6B", "#4ECDC4", "#45B7D1", "#95A5A6"] }

/-! ## Finalize-stage colour de-duplication (brand_service.py lines 241-252).
The aggregated `all_extracted_colors` list may hold dicts carrying a
`hex` key, plain strings, or anything else; dicts without a `hex` key
and non-dict non-string items are dropped, and both dict hexes and plain
strings share one `seen_colors` set. -/

inductive ColorEntry
  | dictE (hex : String) (payload : List (String × String))
  | strE (s : String)
  | otherE (tag : Nat)
deriving DecidableEq, Repr

/-- The hex key under which an entry is de-duplicated (`none` = dropped). -/
def ColorEntry.seenKey : ColorEntry → Option String
  | .dictE h _ => some h
  | .strE s => some s
  | .otherE _ => none

/-- The loop body of lines 244-252: walk the list keeping the first
entry for each key, threading the `seen_colors` set. -/
def dedupColorsFrom (seen : List String) : List ColorEntry → List ColorEntry
  | [] => []
  | e :: rest =>
    match e.seenKey with
    | none => dedupColorsFrom seen rest
    | some k =>
      if k ∈ seen then dedupColorsFrom seen rest
      else e :: dedupColorsFrom (k :: seen) rest

/-- The `unique_extracted_colors` computation: dedup starting from an empty
`seen_colors` set. -/
def dedupColors (l : List ColorEntry) : List ColorEntry :=
  dedupColorsFrom [] l

/-! ## Images and the external capabilities.
An `Image` is the opaque raster the diffusion / PIL capabilities hand
around; `content` stands for its pixel data.  PNG-encoding plus base64
(`_image_to_data_url`, brand_service.py lines 577-586) is abstracted as
prefixing the opaque content descriptor. -/

structure Image where
  width : Nat
  height : Nat
  content : String
deriving DecidableEq, Repr

def image_to_data_url (img : Image) : String :=
  "data:image/png;base64," ++ img.content

/-- `_enhance_logo` (lines 549-575): white-pixel transparency masking and
an unsharp filter.  Pure pixel-level processing on the opaque raster; no
claim observes pixel data, so it keeps the descriptor. -/
def enhance_logo_image (img : Image) : Image := img

/-! ## Logo results (api/models/brand.py lines 90-97).
`metadata` is an open dict in the source; the fields written by the
service are modelled explicitly, with `enhanced` doubling as the marker
for the keys only the enhancement stage adds. -/

structure LogoMeta where
  style : String
  industry : String
  prompt_used : String
  file_path : Option String := none
  generated_with : String
  business_name : Option String := none
  enhanced : Bool := false
  upscaled : Bool := false
  upscaled_path : Option String := none
  extracted_colors : List ColorEntry := []
  social_exports : List (String × String) := []
  enhancement_features : List String := []
deriving DecidableEq, Repr

/-- Scores in the source are floats that are always exact multiples of
0.01 (bases 0.85/0.90/0.75/0.80, steps 0.05/0.02, increments 0.10/0.15,
bound 1.0); they are modelled in hundredths of the unit interval, so the
integer 100 represents the score 1.0 and 85 represents 0.85. -/
structure LogoResult where
  id : Nat
  url : String
  thumbnail_url : String
  style_confidence : ℤ
  quality_score : ℤ
  metadata : LogoMeta
deriving DecidableEq, Repr

/-- Pydantic construction of `LogoResult`: the `ge=0.0, le=1.0`
constraints on the two scores raise `ValidationError` (here: `none`)
when violated (in hundredths: outside `[0, 100]`). -/
def mkLogoResult (id : Nat) (url thumb : String) (sc q : ℤ) (md : LogoMeta) :
    Option LogoResult :=
  if 0 ≤ sc ∧ sc ≤ 100 ∧ 0 ≤ q ∧ q ≤ 100 then
    some { id := id, url := url, thumbnail_url := thumb,
           style_confidence := sc, quality_score := q, metadata := md }
  else none

/-- Python slicing with ellipsis: `s[:n] + "..." if len(s) > n else s`. -/
def truncateWithEllipsis (n : Nat) (s : String) : String :=
  if s.length > n then s.take n ++ "..." else s

/-! ## Prompt synthesis (brand_service.py lines 472-547) -/

def styleModifier : LogoStyle → String
  | .minimal => "clean minimalist design, simple geometric shapes, flat design"
  | .geometric => "geometric shapes, mathematical precision, modern clean lines"
  | .textBased => "typography focused, lettering design, font-based logo"
  | .symbolic => "symbolic representation, meaningful icons, brand symbols"
  | .abstractStyle => "abstract forms, creative interpretation, artistic shapes"
  | .classic => "timeless design, traditional elements, elegant composition"

/-- `industry_elements.get(request.industry, "professional symbols")`:
the dict covers all industries except "other". -/
def industryElement : Industry → String
  | .technology => "subtle tech elements, digital symbols, innovation themes"
  | .healthcare => "medical symbols, care icons, trust elements"
  | .education => "knowledge symbols, learning icons, growth elements"
  | .finance => "stability symbols, trust icons, prosperity elements"
  | .retail => "commerce symbols, shopping icons, consumer appeal"
  | .food => "organic shapes, appetite appeal, freshness symbols"
  | .fashion => "elegant design, style elements, luxury appeal"
  | .automotive => "motion symbols, power elements, reliability icons"
  | .realEstate => "stability symbols, home icons, growth elements"
  | .consulting => "expertise symbols, guidance icons, professional elements"
  | .creative => "artistic elements, creative symbols, imagination icons"
  | .other => "professional symbols"

def build_sd_prompt (req : BrandRequest) : String :=
  let personality_str :=
    String.intercalate ", " ((req.personality_traits.take 3).map PersonalityTrait.value)
  let base_prompt :=
    "professional logo design, " ++ req.business_name ++ ", " ++
      req.industry.value ++ " company"
  let quality_terms :=
    ["high quality vector style", "clean white background",
     "professional branding", "scalable design", "corporate identity",
     personality_str ++ " personality"]
  base_prompt ++ ", " ++ styleModifier req.style ++ ", " ++
    industryElement req.industry ++ ", " ++ String.intercalate ", " quality_terms

def industryNegative : Industry → Option String
  | .technology => some "circuit boards, gears, lightbulbs, atoms"
  | .healthcare => some "red crosses, stethoscopes, pills, syringes"
  | .education => some "graduation caps, apples, books, pencils"
  | .finance => some "dollar signs, coins, piggy banks, graphs"
  | .retail => some "shopping carts, price tags, bags"
  | .food => some "chef hats, forks and knives, plates"
  | .fashion => some "hangers, mannequins, sewing machines"
  | .automotive => some "car silhouettes, wheels, keys"
  | .realEstate => some "house shapes, keys, rooftops"
  | .consulting => some "handshakes, briefcases, ties"
  | .creative => some "paint brushes, palettes, easels"
  | .other => none

def build_sd_negative_prompt (req : BrandRequest) : String :=
  let negative_elements :=
    ["blurry", "pixelated", "low quality", "text artifacts",
     "complex details", "realistic photo", "3d render",
     "multiple logos", "watermark", "signature", "cluttered",
     "amateur", "unprofessional", "distorted", "ugly"]
  let negative_elements :=
    match industryNegative req.industry with
    | some s => negative_elements ++ [s]
    | none => negative_elements
  String.intercalate ", " negative_elements

/-! ## Placeholder fallback (brand_service.py lines 406-470).
Job/logo ids are uuid4 strings in the source; they are opaque and only
compared for table keying, so ids are modelled as naturals (the loop
index for logos, a caller-supplied fresh id for jobs). -/

/-- The `color_map` of `_create_placeholder_logo`; the `.get` default
`["#333333", "#666666", "#999999"]` is unreachable for a validated
scheme. -/
def placeholderColors : ColorScheme → List String
  | .warm => ["#D2691E", "#CC5500", "#FFB000"]
  | .cool => ["#4A90E2", "#357ABD", "#2E86C1"]
  | .neutral => ["#6B6B6B", "#8B8B8B", "#A0A0A0"]
  | .vibrant => ["#FF6B6B", "#4ECDC4", "#45B7D1"]

/-- `_create_placeholder_logo`: a flat 512x512 square in
`colors[index % len(colors)]`, returned as a data URL.  Its own
`except` arm returns a fixed embedded SVG, so it never raises. -/
def create_placeholder_logo (req : BrandRequest) (index : Nat) : String :=
  let colors := placeholderColors req.color_scheme
  image_to_data_url { width := 512, height := 512,
                      content := colors.getD (index % colors.length) "#333333" }

/-- One iteration of the `_generate_fallback_logos` loop body. -/
def fallbackLogoAt (req : BrandRequest) (i : Nat) : Option LogoResult :=
  let url := create_placeholder_logo req i
  mkLogoResult i url url (75 + (i : ℤ) * 5) (80 + (i : ℤ) * 2)
    { style := req.style.value, industry := req.industry.value,
      prompt_used := truncateWithEllipsis 100 req.prompt,
      generated_with := "placeholder_fallback",
      business_name := some req.business_name }

/-- The `for i in range(n)` accumulation: append logo `i` in order,
failing as a whole if any construction fails. -/
def buildLogoList (mk : Nat → Option LogoResult) : Nat → Option (List LogoResult)
  | 0 => some []
  | n + 1 =>
    match buildLogoList mk n, mk n with
    | some l, some x => some (l ++ [x])
    | _, _ => none

/-- `_generate_fallback_logos`.  `fallbackExn` injects an exception from
the runtime environment inside the loop (the only way the chain at
lines 439-441 re-raises: each `_create_placeholder_logo` call is
internally recovered). -/
def generate_fallback_logos (fallbackExn : Option String) (req : BrandRequest) :
    Except String (List LogoResult) :=
  match fallbackExn with
  | some e => .error e
  | none =>
    match buildLogoList (fallbackLogoAt req) req.num_logos with
    | some l => .ok l
    | none => .error "Fallback logo generation failed"

/-! ## Stable-Diffusion path of `_generate_logos` (lines 286-404) -/

/-- One iteration of the `for i, img in enumerate(images)` loop at lines
359-387: `pos` is the position among the successfully generated images,
which drives the base scores `0.85 + pos*0.05` and `0.90 + pos*0.02`
(hundredths: `85 + pos*5` and `90 + pos*2`). -/
def sdLogoAt (req : BrandRequest) (pos : Nat) (img : Image) : Option LogoResult :=
  let enhanced := enhance_logo_image img
  let url := image_to_data_url enhanced
  mkLogoResult pos url url (85 + (pos : ℤ) * 5) (90 + (pos : ℤ) * 2)
    { style := req.style.value, industry := req.industry.value,
      prompt_used := truncateWithEllipsis 150 (build_sd_prompt req),
      file_path := some ("logos/" ++ toString pos ++ ".png"),
      generated_with := "stable_diffusion" }

def buildSdLogos (req : BrandRequest) : Nat → List Image → Option (List LogoResult)
  | _, [] => some []
  | pos, img :: rest =>
    match sdLogoAt req pos img, buildSdLogos req (pos + 1) rest with
    | some x, some l => some (x :: l)
    | _, _ => none

/-- Environment for stage 1: availability of the diffusion pipeline
(`self.sd_pipeline`), its readiness check (`vae` presence, line 299),
the per-index outcome of the diffusion call (`none` covers both a
raised exception and an empty `result.images`, lines 339-348), and a
runtime exception inside the placeholder fallback itself. -/
structure GenEnv where
  sdPipeline : Bool
  pipelineReady : Bool
  genImage : Nat → Option Image
  fallbackExn : Option String

/-- `_generate_logos`: collect the per-index successes; fall back to the
placeholder generator when the pipeline is absent, when its readiness
check raises, when no image at all was produced, or when a
`LogoResult` validation error is caught by the outer handler; re-raise
only what the fallback itself raises. -/
def generate_logos (env : GenEnv) (req : BrandRequest) :
    Except String (List LogoResult) :=
  if env.sdPipeline then
    if env.pipelineReady then
      let images := (List.range req.num_logos).filterMap env.genImage
      if images.isEmpty then generate_fallback_logos env.fallbackExn req
      else
        match buildSdLogos req 0 images with
        | some logos => .ok logos
        | none => generate_fallback_logos env.fallbackExn req
    else generate_fallback_logos env.fallbackExn req
  else generate_fallback_logos env.fallbackExn req

/-! ## Enhancement stage (brand_service.py lines 935-1027 and the
helpers at 588-797) -/

/-- `self.social_media_formats` (lines 62-70). -/
def social_media_formats : List (String × Nat × Nat) :=
  [("instagram_post", 1080, 1080), ("instagram_story", 1080, 1920),
   ("facebook_post", 1200, 630), ("twitter_post", 1024, 512),
   ("linkedin_post", 1200, 627), ("youtube_thumbnail", 1280, 720),
   ("youtube_banner", 2048, 1152)]

/-- `_create_social_media_exports`: one export path per catalog entry
(the 80%-scale-and-center rendering is pixel-level; the stored value is
the per-format path map). -/
def create_social_media_exports (logoId : Nat) : List (String × String) :=
  social_media_formats.map
    (fun f => (f.1, "social_exports/" ++ toString logoId ++ "_" ++ f.1 ++ ".png"))

/-- The fixed default of `_extract_colors_from_logo` (lines 630-637)
returned when colour extraction fails. -/
def default_extracted_colors : List ColorEntry :=
  [.dictE "#333333" [("name", "Dark Gray")],
   .dictE "#666666" [("name", "Gray")],
   .dictE "#999999" [("name", "Light Gray")],
   .dictE "#CCCCCC" [("name", "Silver")],
   .dictE "#FF6B6B" [("name", "Light Coral")],
   .dictE "#4ECDC4" [("name", "Medium Turquoise")]]

/-- Environment for stage 5: an exception reaching the stage-wide
handler (lines 1025-1027, which returns the input unchanged), whether
each logo's raster could be reloaded (lines 947-963: on failure the
logo is passed through unmodified), and the colour-extraction
capability's per-logo outcome (`none` = failure, recovered with the
fixed default list). -/
structure EnhanceEnv where
  catastrophic : Option String
  loadOk : Nat → Bool
  extracted : Nat → Option (List ColorEntry)
  upscalerAvailable : Bool

/-- The per-stage score increment `min(logo.style_confidence + 0.1, 1.0)`
(line 997), in hundredths. -/
def enhanceConfidence (x : ℤ) : ℤ := min (x + 10) 100

/-- The per-stage score increment `min(logo.quality_score + 0.15, 1.0)`
(line 998), in hundredths. -/
def enhanceQuality (x : ℤ) : ℤ := min (x + 15) 100

/-- The enhanced `LogoResult` built at lines 993-1016.  `url` keeps the
opaque descriptor (the upscaled raster re-encoded); `thumbnail_url`
becomes the original url, and the metadata gains the enhancement keys.
Note `upscaled` is set `True` even when `_upscale_logo` fell back to a
plain 2x resize. -/
def enhance_one (env : EnhanceEnv) (pos : Nat) (logo : LogoResult) : LogoResult :=
  { logo with
    thumbnail_url := logo.url,
    style_confidence := enhanceConfidence logo.style_confidence,
    quality_score := enhanceQuality logo.quality_score,
    metadata := { logo.metadata with
      enhanced := true,
      upscaled := true,
      upscaled_path := some ("logos/" ++ toString logo.id ++ "_upscaled.png"),
      extracted_colors := (env.extracted pos).getD default_extracted_colors,
      social_exports := create_social_media_exports logo.id,
      enhancement_features :=
        ["4x_upscaling", "color_extraction", "color_variations",
         "social_media_exports"] } }

/-- The `for i, logo in enumerate(logos)` loop: exactly one output per
input, unmodified when the raster cannot be loaded. -/
def enhanceList (env : EnhanceEnv) (pos : Nat) : List LogoResult → List LogoResult
  | [] => []
  | l :: rest =>
    (if env.loadOk pos then enhance_one env pos l else l) :: enhanceList env (pos + 1) rest

/-- `_enhance_logos`: best-effort per logo; on a catastrophic stage
failure the input list is returned unchanged. -/
def enhance_logos (env : EnhanceEnv) (logos : List LogoResult) : List LogoResult :=
  match env.catastrophic with
  | some _ => logos
  | none => enhanceList env 0 logos

/-! ## Typography stage (brand_service.py lines 858-905) -/

structure Typography where
  primary_font : String
  secondary_font : String
  font_family : String
  font_style : String
  weight : String
deriving DecidableEq, Repr

/-- The `(personality, industry)` entries of `font_map`. -/
def font_map (trait : PersonalityTrait) (ind : Industry) : Option (String × String) :=
  match trait, ind with
  | .professional, .technology => some ("Inter", "Roboto")
  | .creative, .fashion => some ("Playfair Display", "Montserrat")
  | .friendly, .education => some ("Open Sans", "Lato")
  | .modern, .technology => some ("Poppins", "Source Sans Pro")
  | .trustworthy, .finance => some ("Georgia", "Times New Roman")
  | .innovative, .technology => some ("Helvetica Neue", "Arial")
  | _, _ => none

/-- The `personality_fonts` fallback dict; its `.get` default
`("Inter", "Roboto")` is unreachable since every trait is a key. -/
def personality_fonts : PersonalityTrait → String × String
  | .professional => ("Inter", "Roboto")
  | .creative => ("Playfair Display", "Montserrat")
  | .friendly => ("Open Sans", "Lato")
  | .modern => ("Poppins", "Source Sans Pro")
  | .trustworthy => ("Georgia", "Times New Roman")
  | .innovative => ("Helvetica Neue", "Arial")

def sansSerifFonts : List String :=
  ["Inter", "Roboto", "Open Sans", "Lato", "Poppins", "Helvetica Neue", "Arial"]

def generate_typography (req : BrandRequest) : Typography :=
  let primary_trait := req.personality_traits.headD .professional
  let fonts := (font_map primary_trait req.industry).getD (personality_fonts primary_trait)
  { primary_font := fonts.1, secondary_font := fonts.2,
    font_family := if fonts.1 ∈ sansSerifFonts then "sans-serif" else "serif",
    font_style := "regular", weight := "400" }

/-! ## Brand description stage (brand_service.py lines 907-933) -/

def generate_brand_description (req : BrandRequest) : String :=
  let personality_text :=
    String.intercalate ", " (req.personality_traits.map PersonalityTrait.value)
  let audience := (req.target_audience.value).replace "-" " "
  let description :=
    req.business_name ++ " is a " ++ personality_text ++ " " ++
      req.industry.value ++ " company that serves " ++ audience ++ ". \n\n" ++
    "The brand embodies a " ++ req.style.value ++ " aesthetic with " ++
      req.color_scheme.value ++
      " tones, reflecting the company\x27s commitment to innovation and excellence in the " ++
      req.industry.value ++ " sector.\n\n" ++
    req.business_name ++
      " stands out through its unique approach to combining traditional values with modern solutions, creating a trustworthy yet forward-thinking brand identity that resonates with its target market."
  match req.additional_notes with
  | some notes => description ++ "\n\nAdditional considerations: " ++ notes
  | none => description

/-! ## The job table (brand_service.py lines 42, 196-201, 272-284,
1029-1039).  `active_jobs` is an in-process dict from job id to a status
dict; the two dict shapes the service ever stores are a processing
record (status/progress/current_step, plus the request) and the
terminal failed record (status/error only: no progress key). -/

structure JobRecord where
  status : String
  progress : Option ℚ
  current_step : Option String
  error : Option String
deriving DecidableEq, Repr

def JobTable := Nat → Option JobRecord

def emptyTable : JobTable := fun _ => none

/-- The four mutations `generate_brand` performs on `active_jobs`. -/
inductive TableOp
  | create (id : Nat)
  | updateProgress (id : Nat) (p : ℚ) (step : String)
  | finishSuccess (id : Nat)
  | markFailed (id : Nat) (e : String)

def applyOp (t : JobTable) : TableOp → JobTable
  | .create id => fun j =>
      if j = id then
        some { status := "processing", progress := some 0,
               current_step := some "Initializing", error := none }
      else t j
  | .updateProgress id p step => fun j =>
      if j = id then
        (t id).map (fun r => { r with progress := some p, current_step := some step })
      else t j
  | .finishSuccess id => fun j => if j = id then none else t j
  | .markFailed id e => fun j =>
      if j = id then
        some { status := "failed", progress := none, current_step := none,
               error := some e }
      else t j

/-- `get_job_status` (lines 1037-1039): a plain dict lookup. -/
def get_job_status (t : JobTable) (id : Nat) : Option JobRecord := t id

/-! ## The pipeline `generate_brand` (lines 187-284) -/

structure PipelineEnv where
  gen : GenEnv
  enh : EnhanceEnv

structure BrandResponse where
  job_id : Nat
  business_name : String
  status : String
  logos : List LogoResult
  color_palette : List String
  font_suggestion : String
  brand_description : String
  extracted_colors : List ColorEntry
  color_variations_available : Bool
  social_media_exports : List (Nat × List (String × String))
  upscaling_applied : Bool
  enhancement_features : List String
deriving Repr

/-- The `enhancement_features.update(...)` set union over logos carrying
the key, read back with `list(...)`; Python set iteration order is
modelled as first-insertion order. -/
def unionFeatures (logos : List LogoResult) : List String :=
  (logos.flatMap
    (fun l => if l.metadata.enhanced then l.metadata.enhancement_features else [])).dedup

/-- The response value of a successful run (lines 226-270).  Wall-clock
`processing_time_seconds` and `created_at` are real-time fields, not
modelled. -/
def finalizeResponse (jobId : Nat) (env : PipelineEnv) (req : BrandRequest)
    (logos : List LogoResult) : BrandResponse :=
  let enhanced := enhance_logos env.enh logos
  let palette := generate_color_palette req.color_scheme
  let typography := generate_typography req
  let all_extracted := enhanced.flatMap
    (fun l => if l.metadata.enhanced then l.metadata.extracted_colors else [])
  { job_id := jobId, business_name := req.business_name, status := "completed",
    logos := enhanced,
    color_palette := [palette.primary, palette.secondary, palette.accent, palette.neutral],
    font_suggestion := typography.primary_font,
    brand_description := generate_brand_description req,
    extracted_colors := (dedupColors all_extracted).take 12,
    color_variations_available :=
      (!enhanced.isEmpty) && enhanced.any (fun l => l.metadata.enhanced),
    social_media_exports := enhanced.filterMap
      (fun l => if l.metadata.enhanced then some (l.id, l.metadata.social_exports) else none),
    upscaling_applied := enhanced.any (fun l => l.metadata.upscaled),
    enhancement_features := unionFeatures enhanced }

/-- `generate_brand`: stage 1 is the only stage whose exceptions can
escape (stages 2-5 each end in an unconditional recovery arm); an
escaping exception is re-raised after the failed record is written. -/
def generate_brand (jobId : Nat) (env : PipelineEnv) (req : BrandRequest) :
    Except String BrandResponse :=
  match generate_logos env.gen req with
  | .error e => .error e
  | .ok logos => .ok (finalizeResponse jobId env req logos)

/-- The sequence of job-table mutations a `generate_brand` call
performs, in order (lines 196-284). -/
def brandOps (jobId : Nat) (env : PipelineEnv) (req : BrandRequest) : List TableOp :=
  [.create jobId,
   .updateProgress jobId (1/10) "Generating logo concepts..."] ++
  match generate_logos env.gen req with
  | .error e => [.markFailed jobId e]
  | .ok _ =>
    [.updateProgress jobId (2/5) "Creating color palette...",
     .updateProgress jobId (3/5) "Selecting typography...",
     .updateProgress jobId (4/5) "Creating brand description...",
     .updateProgress jobId (9/10) "Enhancing images...",
     .updateProgress jobId 1 "Finalizing brand kit...",
     .finishSuccess jobId]

/-- The job tables after each successive mutation of a run. -/
def statesAfter (t : JobTable) : List TableOp → List JobTable
  | [] => []
  | op :: rest => applyOp t op :: statesAfter (applyOp t op) rest

def runTable (jobId : Nat) (env : PipelineEnv) (req : BrandRequest) (t0 : JobTable) :
    JobTable :=
  (brandOps jobId env req).foldl applyOp t0

/-- The progress the status route reports for a stored record:
`status.get("progress", 0.0)` (api/routes/brand.py line 88). -/
def observedProgress (r : JobRecord) : ℚ := r.progress.getD 0

/-- The job's reported progress value after each mutation of a run
(skipping moments where the id is absent from the table). -/
def progressTrace (jobId : Nat) (env : PipelineEnv) (req : BrandRequest)
    (t0 : JobTable) : List ℚ :=
  (statesAfter t0 (brandOps jobId env req)).filterMap
    (fun t => (t jobId).map observedProgress)

/-- Like `progressTrace` but restricted to moments where the stored
record has status "processing". -/
def processingTrace (jobId : Nat) (env : PipelineEnv) (req : BrandRequest)
    (t0 : JobTable) : List ℚ :=
  (statesAfter t0 (brandOps jobId env req)).filterMap
    (fun t => (t jobId).bind
      (fun r => if r.status = "processing" then some (observedProgress r) else none))

/-! ## The HTTP route (api/routes/brand.py lines 24-67).
FastAPI validates the pydantic request model before the handler body
runs; a validation error is surfaced with no handler work.  The 400/500
split of the handler is modelled in the error payload. -/

def routeGenerate (raw : BrandRequest) (jobId : Nat) (env : PipelineEnv)
    (t0 : JobTable) : Except (Nat × String) BrandResponse × JobTable :=
  match validateBrandRequest raw with
  | .error e => (.error (400, e), t0)
  | .ok req =>
    if pyStrip req.business_name = "" then
      (.error (400, "Business name is required"), t0)
    else if req.personality_traits = [] then
      (.error (400, "At least one personality trait is required"), t0)
    else
      match generate_brand jobId env req with
      | .error _ =>
        (.error (500, "Internal server error during brand generation"),
         runTable jobId env req t0)
      | .ok resp => (.ok resp, runTable jobId env req t0)

/-! ## Concrete fixtures used by witnesses and counterexamples -/

/-- The example request of the spec's testable-properties section. -/
def reqCool : BrandRequest :=
  { business_name := "Acme Corp", industry := .technology, style := .minimal,
    color_scheme := .cool, personality_traits := [.professional],
    target_audience := .businesses, prompt := "clean modern logo design",
    negative_prompt := "blurry, cluttered", additional_notes := none,
    num_logos := 2, num_variations := 1 }

/-- A benign enhancement environment: no catastrophic failure, every
raster loadable, colour extraction failing (recovered by the default
list), no upscaler. -/
def enhBenign : EnhanceEnv :=
  { catastrophic := none, loadOk := fun _ => true, extracted := fun _ => none,
    upscalerAvailable := false }

/-- Diffusion pipeline absent: every run takes the placeholder path. -/
def envNoSD : PipelineEnv :=
  { gen := { sdPipeline := false, pipelineReady := false,
             genImage := fun _ => none, fallbackExn := none },
    enh := enhBenign }

/-- Diffusion pipeline present and succeeding at index 0 only. -/
def envPartial : PipelineEnv :=
  { gen := { sdPipeline := true, pipelineReady := true,
             genImage := fun i => if i = 0 then some ⟨256, 256, "img0"⟩ else none,
             fallbackExn := none },
    enh := enhBenign }

/-- Every generation avenue failing: no pipeline and a runtime exception
inside the placeholder fallback loop. -/
def envBoom : PipelineEnv :=
  { gen := { sdPipeline := false, pipelineReady := false,
             genImage := fun _ => none, fallbackExn := some "boom" },
    enh := enhBenign }

/-- The logo list a placeholder-path run of `reqCool` produces. -/
def coolLogos : List LogoResult :=
  ((generate_logos envNoSD.gen reqCool).toOption).getD []

/-- The response a placeholder-path run of `reqCool` produces. -/
def respCool : BrandResponse := finalizeResponse 0 envNoSD reqCool coolLogos

def logoDefault : LogoResult :=
  { id := 0, url := "", thumbnail_url := "", style_confidence := 0,
    quality_score := 0,
    metadata := { style := "", industry := "", prompt_used := "",
                  generated_with := "" } }

/-- The first logo of the placeholder-path run of `reqCool`. -/
def coolLogo0 : LogoResult := coolLogos.getD 0 logoDefault

/-- A request rejected by validation: empty business name. -/
def rawEmptyName : BrandRequest := { reqCool with business_name := "" }

/-- Job tables reachable from the empty table through the mutations the
service performs (any interleaving of any number of runs). -/
inductive ReachableTable : JobTable → Prop
  | empty : ReachableTable emptyTable
  | step : ∀ t op, ReachableTable t → ReachableTable (applyOp t op)

/-! ## Helper lemmas -/

theorem mkLogoResult_some {id : Nat} {url thumb : String} {sc q : ℤ} {md : LogoMeta}
    {x : LogoResult} (h : mkLogoResult id url thumb sc q md = some x) :
    x.style_confidence = sc ∧ x.quality_score = q ∧ x.metadata = md ∧
    0 ≤ sc ∧ sc ≤ 100 ∧ 0 ≤ q ∧ q ≤ 100 := by
  unfold mkLogoResult at h
  split at h
  · next hcond =>
      cases h
      exact ⟨rfl, rfl, rfl, hcond.1, hcond.2.1, hcond.2.2.1, hcond.2.2.2⟩
  · exact absurd h (by simp)

theorem dedupColorsFrom_idem (l : List ColorEntry) :
    ∀ seen, dedupColorsFrom seen (dedupColorsFrom seen l) = dedupColorsFrom seen l := by
  induction l with
  | nil => intro seen; simp [dedupColorsFrom]
  | cons e rest ih =>
      intro seen
      cases hk : e.seenKey with
      | none => simp [dedupColorsFrom, hk, ih seen]
      | some k =>
          by_cases hmem : k ∈ seen
          · simp [dedupColorsFrom, hk, hmem, ih seen]
          · simp only [dedupColorsFrom, hk, if_neg hmem]
            simp [dedupColorsFrom, hk, hmem, ih (k :: seen)]

theorem buildLogoList_some (mk : Nat → Option LogoResult) :
    ∀ n : Nat, (∀ i, i < n → (mk i).isSome) →
      ∃ l, buildLogoList mk n = some l ∧ l.length = n := by
  intro n
  induction n with
  | zero => intro _; exact ⟨[], rfl, rfl⟩
  | succ n ih =>
      intro h
      obtain ⟨l, hl, hlen⟩ := ih (fun i hi => h i (by omega))
      obtain ⟨x, hx⟩ := Option.isSome_iff_exists.mp (h n (by omega))
      refine ⟨l ++ [x], ?_, by simp [hlen]⟩
      simp [buildLogoList, hl, hx]

theorem buildLogoList_mem (mk : Nat → Option LogoResult) :
    ∀ (n : Nat) (l : List LogoResult), buildLogoList mk n = some l →
      ∀ x ∈ l, ∃ i, i < n ∧ mk i = some x := by
  intro n
  induction n with
  | zero =>
      intro l hl x hx
      cases hl
      exact absurd hx (by simp)
  | succ n ih =>
      intro l hl x hx
      unfold buildLogoList at hl
      cases hrec : buildLogoList mk n with
      | none => rw [hrec] at hl; exact absurd hl (by simp)
      | some l0 =>
          rw [hrec] at hl
          cases hmk : mk n with
          | none => rw [hmk] at hl; exact absurd hl (by simp)
          | some x0 =>
              rw [hmk] at hl
              simp only [Option.some.injEq] at hl
              subst hl
              rcases List.mem_append.mp hx with hx0 | hx0
              · obtain ⟨i, hi, hmi⟩ := ih l0 hrec x hx0
                exact ⟨i, by omega, hmi⟩
              · simp only [List.mem_singleton] at hx0
                subst hx0
                exact ⟨n, by omega, hmk⟩

theorem fallbackLogoAt_isSome (req : BrandRequest) (i : Nat) (hi : i ≤ 4) :
    (fallbackLogoAt req i).isSome := by
  have hiz : (i : ℤ) ≤ 4 := by exact_mod_cast hi
  have hiz0 : (0 : ℤ) ≤ (i : ℤ) := Int.ofNat_nonneg i
  unfold fallbackLogoAt mkLogoResult
  rw [if_pos]
  · rfl
  · refine ⟨by omega, by omega, by omega, by omega⟩

theorem generate_fallback_logos_ok (req : BrandRequest) (h5 : req.num_logos ≤ 5) :
    ∃ l, generate_fallback_logos none req = .ok l ∧ l.length = req.num_logos ∧
      ∀ x ∈ l, x.metadata.generated_with = "placeholder_fallback" := by
  obtain ⟨l, hl, hlen⟩ := buildLogoList_some (fallbackLogoAt req) req.num_logos
    (fun i hi => fallbackLogoAt_isSome req i (by omega))
  refine ⟨l, ?_, hlen, ?_⟩
  · simp [generate_fallback_logos, hl]
  · intro x hx
    obtain ⟨i, _, hmk⟩ := buildLogoList_mem (fallbackLogoAt req) req.num_logos l hl x hx
    unfold fallbackLogoAt at hmk
    have := (mkLogoResult_some hmk).2.2.1
    rw [this]

theorem fallback_logos_scores (req : BrandRequest) (fb : Option String)
    (l : List LogoResult) (hl : generate_fallback_logos fb req = .ok l) :
    ∀ x ∈ l, 0 ≤ x.style_confidence ∧ x.style_confidence ≤ 100 ∧
      0 ≤ x.quality_score ∧ x.quality_score ≤ 100 := by
  intro x hx
  unfold generate_fallback_logos at hl
  cases fb with
  | some e => exact absurd hl (by simp)
  | none =>
      cases hb : buildLogoList (fallbackLogoAt req) req.num_logos with
      | none => rw [hb] at hl; exact absurd hl (by simp)
      | some l0 =>
          rw [hb] at hl
          simp only [Except.ok.injEq] at hl
          subst hl
          obtain ⟨i, _, hmk⟩ := buildLogoList_mem _ _ _ hb x hx
          unfold fallbackLogoAt at hmk
          obtain ⟨hsc, hq, _, b1, b2, b3, b4⟩ := mkLogoResult_some hmk
          rw [hsc, hq]
          exact ⟨b1, b2, b3, b4⟩

theorem buildSdLogos_mem (req : BrandRequest) :
    ∀ (imgs : List Image) (pos : Nat) (l : List LogoResult),
      buildSdLogos req pos imgs = some l →
      ∀ x ∈ l, ∃ p img, sdLogoAt req p img = some x := by
  intro imgs
  induction imgs with
  | nil =>
      intro pos l hl x hx
      cases hl
      exact absurd hx (by simp)
  | cons img rest ih =>
      intro pos l hl x hx
      unfold buildSdLogos at hl
      cases hmk : sdLogoAt req pos img with
      | none => rw [hmk] at hl; exact absurd hl (by simp)
      | some x0 =>
          rw [hmk] at hl
          cases hrec : buildSdLogos req (pos + 1) rest with
          | none => rw [hrec] at hl; exact absurd hl (by simp)
          | some l0 =>
              rw [hrec] at hl
              simp only [Option.some.injEq] at hl
              subst hl
              rcases List.mem_cons.mp hx with hx0 | hx0
              · subst hx0; exact ⟨pos, img, hmk⟩
              · exact ih (pos + 1) l0 hrec x hx0

theorem sdLogoAt_isSome (req : BrandRequest) (pos : Nat) (img : Image)
    (hp : pos ≤ 3) : (sdLogoAt req pos img).isSome := by
  have hpz : (pos : ℤ) ≤ 3 := by exact_mod_cast hp
  have hpz0 : (0 : ℤ) ≤ (pos : ℤ) := Int.ofNat_nonneg pos
  unfold sdLogoAt mkLogoResult
  rw [if_pos]
  · rfl
  · refine ⟨by omega, by omega, by omega, by omega⟩

theorem sdLogoAt_none_at_four (req : BrandRequest) (img : Image) :
    sdLogoAt req 4 img = none := by
  unfold sdLogoAt mkLogoResult
  rw [if_neg]
  intro h
  have := h.2.1
  norm_num at this

theorem buildSdLogos_some_of (req : BrandRequest) :
    ∀ (imgs : List Image) (pos : Nat), pos + imgs.length ≤ 4 →
      ∃ l, buildSdLogos req pos imgs = some l ∧ l.length = imgs.length := by
  intro imgs
  induction imgs with
  | nil => intro pos _; exact ⟨[], rfl, rfl⟩
  | cons img rest ih =>
      intro pos hle
      have hp : pos ≤ 3 := by simp at hle; omega
      obtain ⟨x, hx⟩ := Option.isSome_iff_exists.mp (sdLogoAt_isSome req pos img hp)
      obtain ⟨l, hl, hlen⟩ := ih (pos + 1) (by simp at hle; omega)
      refine ⟨x :: l, ?_, by simp [hlen]⟩
      simp [buildSdLogos, hx, hl]

theorem buildSdLogos_none_of_overflow (req : BrandRequest) :
    ∀ (imgs : List Image) (pos : Nat), pos ≤ 4 → 4 < pos + imgs.length →
      buildSdLogos req pos imgs = none := by
  intro imgs
  induction imgs with
  | nil => intro pos _ h; simp at h; omega
  | cons img rest ih =>
      intro pos h1 h2
      by_cases hp : pos = 4
      · subst hp
        simp [buildSdLogos, sdLogoAt_none_at_four req img]
      · have hrec := ih (pos + 1) (by omega) (by simp at h2; omega)
        unfold buildSdLogos
        rw [hrec]
        cases sdLogoAt req pos img <;> rfl

theorem filterMap_range_length (f : Nat → Option Image) :
    ∀ n : Nat, (∀ i, i < n → (f i).isSome) →
      ((List.range n).filterMap f).length = n := by
  intro n
  induction n with
  | zero => intro _; rfl
  | succ n ih =>
      intro h
      rw [List.range_succ, List.filterMap_append]
      obtain ⟨v, hv⟩ := Option.isSome_iff_exists.mp (h n (by omega))
      simp [hv, ih (fun i hi => h i (by omega))]

theorem enhanceList_length (env : EnhanceEnv) :
    ∀ (ls : List LogoResult) (pos : Nat), (enhanceList env pos ls).length = ls.length := by
  intro ls
  induction ls with
  | nil => intro pos; rfl
  | cons l rest ih => intro pos; simp [enhanceList, ih (pos + 1)]

theorem enhance_logos_length (env : EnhanceEnv) (ls : List LogoResult) :
    (enhance_logos env ls).length = ls.length := by
  unfold enhance_logos
  cases env.catastrophic with
  | some e => rfl
  | none => exact enhanceList_length env ls 0

theorem enhanceList_generated_with (env : EnhanceEnv) :
    ∀ (ls : List LogoResult) (pos : Nat), ∀ x ∈ enhanceList env pos ls,
      ∃ y ∈ ls, x.metadata.generated_with = y.metadata.generated_with := by
  intro ls
  induction ls with
  | nil => intro pos x hx; exact absurd hx (by simp [enhanceList])
  | cons l rest ih =>
      intro pos x hx
      simp only [enhanceList] at hx
      rcases List.mem_cons.mp hx with hx0 | hx0
      · subst hx0
        by_cases hload : env.loadOk pos
        · exact ⟨l, List.mem_cons_self l rest, by simp [hload, enhance_one]⟩
        · exact ⟨l, List.mem_cons_self l rest, by simp [hload]⟩
      · obtain ⟨y, hy, hgw⟩ := ih (pos + 1) x hx0
        exact ⟨y, List.mem_cons_of_mem l hy, hgw⟩

theorem enhance_logos_generated_with (env : EnhanceEnv) (ls : List LogoResult) :
    ∀ x ∈ enhance_logos env ls,
      ∃ y ∈ ls, x.metadata.generated_with = y.metadata.generated_with := by
  unfold enhance_logos
  cases env.catastrophic with
  | some e => exact fun x hx => ⟨x, hx, rfl⟩
  | none => exact enhanceList_generated_with env ls 0

/-- One clamped increment keeps a score in `[0, 100]` and never
decreases it. -/
theorem clampAdd_bounds (c x : ℤ) (hc : 0 ≤ c) (h0 : 0 ≤ x) (h1 : x ≤ 100) :
    x ≤ min (x + c) 100 ∧ 0 ≤ min (x + c) 100 ∧ min (x + c) 100 ≤ 100 := by
  rcases min_cases (x + c) 100 with ⟨he, hle⟩ | ⟨he, hlt⟩ <;> rw [he] <;> omega

theorem clampIter (f : ℤ → ℤ)
    (hf : ∀ x, 0 ≤ x → x ≤ 100 → x ≤ f x ∧ 0 ≤ f x ∧ f x ≤ 100)
    (x : ℤ) (h0 : 0 ≤ x) (h1 : x ≤ 100) :
    ∀ n : ℕ, 0 ≤ f^[n] x ∧ f^[n] x ≤ 100 ∧ x ≤ f^[n] x ∧ f^[n] x ≤ f^[n + 1] x := by
  intro n
  induction n with
  | zero =>
      refine ⟨h0, h1, le_refl x, ?_⟩
      rw [Function.iterate_one]
      exact (hf x h0 h1).1
  | succ n ih =>
      obtain ⟨i0, i1, ixn, istep⟩ := ih
      have hstep := hf (f^[n] x) i0 i1
      have hiter : f^[n + 1] x = f (f^[n] x) := Function.iterate_succ_apply' f n x
      have hiter2 : f^[n + 1 + 1] x = f (f^[n + 1] x) :=
        Function.iterate_succ_apply' f (n + 1) x
      have hb1 : 0 ≤ f^[n + 1] x := by rw [hiter]; exact hstep.2.1
      have hb2 : f^[n + 1] x ≤ 100 := by rw [hiter]; exact hstep.2.2
      refine ⟨hb1, hb2, ?_, ?_⟩
      · exact le_trans ixn istep
      · rw [hiter2]; exact (hf (f^[n + 1] x) hb1 hb2).1

/-- Any record held by a reachable job table was written either by job
creation (status "processing"), by a progress update (which keeps the
stored status), or by the failure handler (status "failed"). -/
theorem reachable_status_aux {t : JobTable} (ht : ReachableTable t) :
    ∀ id r, t id = some r → r.status = "processing" ∨ r.status = "failed" := by
  induction ht with
  | empty => intro id r h; exact absurd h (by simp [emptyTable])
  | step t op ht ih =>
      intro id r h
      cases op with
      | create jid =>
          by_cases hid : id = jid
          · subst hid
            simp only [applyOp, if_pos rfl] at h
            cases h
            exact Or.inl rfl
          · simp only [applyOp, if_neg hid] at h
            exact ih id r h
      | updateProgress jid p step =>
          by_cases hid : id = jid
          · subst hid
            simp only [applyOp, if_pos rfl] at h
            cases htj : t id with
            | none => rw [htj] at h; exact absurd h (by simp)
            | some r0 =>
                rw [htj] at h
                simp only [Option.map_some'] at h
                cases h
                exact ih id r0 htj
          · simp only [applyOp, if_neg hid] at h
            exact ih id r h
      | finishSuccess jid =>
          by_cases hid : id = jid
          · subst hid
            simp only [applyOp, if_pos rfl] at h
            exact absurd h (by simp)
          · simp only [applyOp, if_neg hid] at h
            exact ih id r h
      | markFailed jid e =>
          by_cases hid : id = jid
          · subst hid
            simp only [applyOp, if_pos rfl] at h
            cases h
            exact Or.inr rfl
          · simp only [applyOp, if_neg hid] at h
            exact ih id r h

/-- When the diffusion capability is absent, broken, or fails at every
index, `_generate_logos` reduces to the placeholder fallback. -/
theorem generate_logos_all_fail (env : GenEnv) (req : BrandRequest)
    (hfail : env.sdPipeline = false ∨ env.pipelineReady = false ∨
      ∀ i, env.genImage i = none) :
    generate_logos env req = generate_fallback_logos env.fallbackExn req := by
  rcases hfail with h | h | h
  · simp [generate_logos, h]
  · by_cases hsd : env.sdPipeline = true <;> simp [generate_logos, hsd, h]
  · by_cases hsd : env.sdPipeline = true
    · by_cases hrdy : env.pipelineReady = true
      · have himg : (List.range req.num_logos).filterMap env.genImage = [] := by
          rw [List.filterMap_eq_nil_iff]
          intro a _
          exact h a
        simp [generate_logos, hsd, hrdy, himg]
      · simp [generate_logos, hsd, hrdy]
    · simp [generate_logos, hsd]

/-- Every logo list `_generate_logos` returns (either path) consists of
pydantic-validated `LogoResult`s, so both scores lie in `[0, 100]`
hundredths. -/
theorem generate_logos_scores (env : GenEnv) (req : BrandRequest)
    (logos : List LogoResult) (hok : generate_logos env req = .ok logos) :
    ∀ l ∈ logos, 0 ≤ l.style_confidence ∧ l.style_confidence ≤ 100 ∧
      0 ≤ l.quality_score ∧ l.quality_score ≤ 100 := by
  intro l hl
  unfold generate_logos at hok
  by_cases hsd : env.sdPipeline = true
  · rw [if_pos hsd] at hok
    by_cases hrdy : env.pipelineReady = true
    · rw [if_pos hrdy] at hok
      by_cases hemp : ((List.range req.num_logos).filterMap env.genImage).isEmpty = true
      · rw [if_pos hemp] at hok
        exact fallback_logos_scores req env.fallbackExn logos hok l hl
      · rw [if_neg hemp] at hok
        cases hb : buildSdLogos req 0 ((List.range req.num_logos).filterMap env.genImage) with
        | none =>
            rw [hb] at hok
            exact fallback_logos_scores req env.fallbackExn logos hok l hl
        | some l0 =>
            rw [hb] at hok
            simp only [Except.ok.injEq] at hok
            have hl0 : l ∈ l0 := by rw [hok]; exact hl
            obtain ⟨p, img, hmk⟩ := buildSdLogos_mem req _ 0 l0 hb l hl0
            simp only [sdLogoAt] at hmk
            obtain ⟨hsc, hq, _, b1, b2, b3, b4⟩ := mkLogoResult_some hmk
            rw [hsc, hq]
            exact ⟨b1, b2, b3, b4⟩
    · rw [if_neg hrdy] at hok
      exact fallback_logos_scores req env.fallbackExn logos hok l hl
  · rw [if_neg hsd] at hok
    exact fallback_logos_scores req env.fallbackExn logos hok l hl

/-- A request that passes pydantic validation has a non-empty stripped
business name and a prompt of at least 3 words. -/
theorem validate_ok_guards (r q : BrandRequest)
    (h : validateBrandRequest r = .ok q) :
    pyStrip r.business_name ≠ "" ∧ ¬ (pyWords r.prompt).length < 3 := by
  unfold validateBrandRequest at h
  split_ifs at h with h1 h2 h3 h4 h5 h6 h7 h8 h9
  all_goals simp at h
  exact ⟨h2, h5⟩

end BrandCreator

namespace BrandCreator

/-! ## Claim theorems -/

/-- C10: every record observable through `get_job_status` in a reachable
job table has status "processing" or "failed"; a status "completed" is
never observable, because successful runs remove their record instead of
marking it completed. -/
theorem get_job_status_never_completed (t : JobTable) (ht : ReachableTable t)
    (id : Nat) (r : JobRecord) (hr : get_job_status t id = some r) :
    (r.status = "processing" ∨ r.status = "failed") ∧ r.status ≠ "completed" := by
  have h := reachable_status_aux ht id r hr
  refine ⟨h, ?_⟩
  rcases h with h | h <;> rw [h] <;> decide

theorem get_job_status_never_completed_witness :
    get_job_status (applyOp emptyTable (.create 0)) 0 =
      some { status := "processing", progress := some 0,
             current_step := some "Initializing", error := none } ∧
    ((({ status := "processing", progress := some 0,
         current_step := some "Initializing", error := none } : JobRecord).status =
        "processing" ∨
      ({ status := "processing", progress := some 0,
         current_step := some "Initializing", error := none } : JobRecord).status =
        "failed") ∧
     ({ status := "processing", progress := some 0,
        current_step := some "Initializing", error := none } : JobRecord).status ≠
       "completed") :=
  ⟨rfl,
   get_job_status_never_completed (applyOp emptyTable (.create 0))
     (ReachableTable.step _ _ ReachableTable.empty) 0 _ rfl⟩

/-- C7: when an exception escapes pipeline stage 1 (the only stage
without an unconditional recovery arm), the run writes a terminal
record with status "failed" whose error field is the exception message,
and re-raises the same exception to the caller. -/
theorem failed_job_record_and_reraise (jobId : Nat) (env : PipelineEnv)
    (req : BrandRequest) (t0 : JobTable) (e : String)
    (h : generate_logos env.gen req = .error e) :
    generate_brand jobId env req = .error e ∧
    get_job_status (runTable jobId env req t0) jobId =
      some { status := "failed", progress := none, current_step := none,
             error := some e } := by
  constructor
  · simp [generate_brand, h]
  · simp [get_job_status, runTable, brandOps, h, applyOp]

theorem failed_job_record_and_reraise_witness :
    generate_brand 0 envBoom reqCool = .error "boom" ∧
    get_job_status (runTable 0 envBoom reqCool emptyTable) 0 =
      some { status := "failed", progress := none, current_step := none,
             error := some "boom" } :=
  failed_job_record_and_reraise 0 envBoom reqCool emptyTable "boom" rfl

/-- C5: colour-palette generation is a pure function of the colour
scheme (two calls with the same scheme return identical hex values),
and for the "cool" scheme the flattened palette of a completed response
is exactly the four primary/secondary/accent/neutral entries. -/
theorem color_palette_pure_and_cool (r₁ r₂ : BrandRequest)
    (hs : r₁.color_scheme = r₂.color_scheme) (jobId : Nat) (env : PipelineEnv)
    (req : BrandRequest) (hcool : req.color_scheme = .cool)
    (resp : BrandResponse) (hok : generate_brand jobId env req = .ok resp) :
    generate_color_palette r₁.color_scheme = generate_color_palette r₂.color_scheme ∧
    resp.color_palette = ["#4A90E2", "#357ABD", "#2E86C1", "#708090"] := by
  constructor
  · rw [hs]
  · cases hgl : generate_logos env.gen req with
    | error e =>
        rw [generate_brand, hgl] at hok
        exact absurd hok (by simp)
    | ok logos =>
        rw [generate_brand, hgl] at hok
        simp only [Except.ok.injEq] at hok
        subst hok
        simp [finalizeResponse, hcool, generate_color_palette]

theorem color_palette_pure_and_cool_witness :
    reqCool.color_scheme = ColorScheme.cool ∧
    generate_color_palette reqCool.color_scheme =
      generate_color_palette reqCool.color_scheme ∧
    respCool.color_palette = ["#4A90E2", "#357ABD", "#2E86C1", "#708090"] :=
  ⟨rfl,
   (color_palette_pure_and_cool reqCool reqCool rfl 0 envNoSD reqCool rfl respCool
      (by rfl)).1,
   (color_palette_pure_and_cool reqCool reqCool rfl 0 envNoSD reqCool rfl respCool
      (by rfl)).2⟩

/-- C6: the finalize-stage de-duplication of extracted colours by hex
value is idempotent: applying `dedupColors` to its own output returns
the same list as applying it once. -/
theorem dedupColors_idempotent (l : List ColorEntry) :
    dedupColors (dedupColors l) = dedupColors l :=
  dedupColorsFrom_idem l []

/-- C8: the per-logo generation seed is
`(hash(business_name) + index * 1000) % 2**32`: for any fixed string
hash, the seed at a slot is a function of the business name alone (two
requests with the same name agree at every index), it satisfies exactly
this derivation, and it lies in the 32-bit seed space. -/
theorem sdSeed_derivation (pyHash : String → ℤ) (name₁ name₂ : String) (i : ℕ)
    (hname : name₁ = name₂) :
    sdSeed pyHash name₁ i = sdSeed pyHash name₂ i ∧
    sdSeed pyHash name₁ i = (pyHash name₁ + (i : ℤ) * 1000) % (2 ^ 32 : ℤ) ∧
    0 ≤ sdSeed pyHash name₁ i ∧ sdSeed pyHash name₁ i < 2 ^ 32 := by
  subst hname
  refine ⟨rfl, rfl, Int.emod_nonneg _ (by norm_num), Int.emod_lt_of_pos _ (by norm_num)⟩

theorem sdSeed_derivation_witness :
    sdSeed (fun s => (s.length : ℤ) - 7) "Acme Corp" 3 =
      sdSeed (fun s => (s.length : ℤ) - 7) "Acme Corp" 3 ∧
    sdSeed (fun s => (s.length : ℤ) - 7) "Acme Corp" 3 =
      (((("Acme Corp" : String).length : ℤ) - 7) + (3 : ℤ) * 1000) % (2 ^ 32 : ℤ) ∧
    0 ≤ sdSeed (fun s => (s.length : ℤ) - 7) "Acme Corp" 3 ∧
    sdSeed (fun s => (s.length : ℤ) - 7) "Acme Corp" 3 < 2 ^ 32 :=
  sdSeed_derivation (fun s => (s.length : ℤ) - 7) "Acme Corp" "Acme Corp" 3 rfl

end BrandCreator

namespace BrandCreator

/-- C4: when the image-generation capability always fails (pipeline
absent, broken, or failing at every index), `generate_brand` does not
raise and returns exactly `num_logos` placeholder logos, each carrying
`metadata.generated_with = "placeholder_fallback"`. -/
theorem always_failing_capability_placeholder (env : PipelineEnv)
    (req : BrandRequest) (jobId : Nat)
    (hfail : env.gen.sdPipeline = false ∨ env.gen.pipelineReady = false ∨
      ∀ i, env.gen.genImage i = none)
    (hfb : env.gen.fallbackExn = none) (h5 : req.num_logos ≤ 5) :
    ∃ resp, generate_brand jobId env req = .ok resp ∧
      resp.logos.length = req.num_logos ∧
      ∀ l ∈ resp.logos, l.metadata.generated_with = "placeholder_fallback" := by
  obtain ⟨l, hl, hlen, hgw⟩ := generate_fallback_logos_ok req h5
  have hgl : generate_logos env.gen req = .ok l := by
    rw [generate_logos_all_fail env.gen req hfail, hfb, hl]
  refine ⟨finalizeResponse jobId env req l, ?_, ?_, ?_⟩
  · simp [generate_brand, hgl]
  · simp [finalizeResponse, enhance_logos_length, hlen]
  · intro x hx
    simp only [finalizeResponse] at hx
    obtain ⟨y, hy, hxy⟩ := enhance_logos_generated_with env.enh l x hx
    rw [hxy]
    exact hgw y hy

theorem always_failing_capability_placeholder_witness :
    ∃ resp, generate_brand 2 envNoSD reqCool = .ok resp ∧
      resp.logos.length = reqCool.num_logos ∧
      ∀ l ∈ resp.logos, l.metadata.generated_with = "placeholder_fallback" :=
  always_failing_capability_placeholder envNoSD reqCool 2 (Or.inl rfl) rfl
    (by decide)

/-- C2: every logo `_generate_logos` produces (either path, any index)
has both scores in `[0, 100]` hundredths (that is, `[0, 1.0]`), and
through any number of enhancement increments the scores never decrease
below the base score, never decrease step to step, and stay clamped at
100 hundredths (1.0). -/
theorem logo_scores_bounded_and_monotone (env : GenEnv) (req : BrandRequest)
    (logos : List LogoResult) (hok : generate_logos env req = .ok logos)
    (l : LogoResult) (hl : l ∈ logos) (n : ℕ) :
    (0 ≤ l.style_confidence ∧ l.style_confidence ≤ 100 ∧
     0 ≤ l.quality_score ∧ l.quality_score ≤ 100) ∧
    (0 ≤ enhanceConfidence^[n] l.style_confidence ∧
     enhanceConfidence^[n] l.style_confidence ≤ 100 ∧
     l.style_confidence ≤ enhanceConfidence^[n] l.style_confidence ∧
     enhanceConfidence^[n] l.style_confidence ≤
       enhanceConfidence^[n + 1] l.style_confidence) ∧
    (0 ≤ enhanceQuality^[n] l.quality_score ∧
     enhanceQuality^[n] l.quality_score ≤ 100 ∧
     l.quality_score ≤ enhanceQuality^[n] l.quality_score ∧
     enhanceQuality^[n] l.quality_score ≤
       enhanceQuality^[n + 1] l.quality_score) := by
  obtain ⟨b1, b2, b3, b4⟩ := generate_logos_scores env req logos hok l hl
  have hcf : ∀ x : ℤ, 0 ≤ x → x ≤ 100 →
      x ≤ enhanceConfidence x ∧ 0 ≤ enhanceConfidence x ∧ enhanceConfidence x ≤ 100 :=
    fun x h0 h1 => clampAdd_bounds 10 x (by norm_num) h0 h1
  have hcq : ∀ x : ℤ, 0 ≤ x → x ≤ 100 →
      x ≤ enhanceQuality x ∧ 0 ≤ enhanceQuality x ∧ enhanceQuality x ≤ 100 :=
    fun x h0 h1 => clampAdd_bounds 15 x (by norm_num) h0 h1
  exact ⟨⟨b1, b2, b3, b4⟩,
    clampIter enhanceConfidence hcf l.style_confidence b1 b2 n,
    clampIter enhanceQuality hcq l.quality_score b3 b4 n⟩

theorem logo_scores_bounded_and_monotone_witness :
    (0 ≤ coolLogo0.style_confidence ∧ coolLogo0.style_confidence ≤ 100 ∧
     0 ≤ coolLogo0.quality_score ∧ coolLogo0.quality_score ≤ 100) ∧
    (0 ≤ enhanceConfidence^[2] coolLogo0.style_confidence ∧
     enhanceConfidence^[2] coolLogo0.style_confidence ≤ 100 ∧
     coolLogo0.style_confidence ≤ enhanceConfidence^[2] coolLogo0.style_confidence ∧
     enhanceConfidence^[2] coolLogo0.style_confidence ≤
       enhanceConfidence^[2 + 1] coolLogo0.style_confidence) ∧
    (0 ≤ enhanceQuality^[2] coolLogo0.quality_score ∧
     enhanceQuality^[2] coolLogo0.quality_score ≤ 100 ∧
     coolLogo0.quality_score ≤ enhanceQuality^[2] coolLogo0.quality_score ∧
     enhanceQuality^[2] coolLogo0.quality_score ≤
       enhanceQuality^[2 + 1] coolLogo0.quality_score) :=
  logo_scores_bounded_and_monotone envNoSD.gen reqCool coolLogos rfl coolLogo0
    (by decide) 2

/-- C1 counterexample: a valid request (`num_logos = 2`) for which the
image-generation capability succeeds at index 0 and fails at index 1
yields a completed response with 1 logo, not `num_logos = 2`: the
partial-success path keeps only the successfully generated images. -/
theorem logo_count_partial_success_counterexample :
    validateBrandRequest reqCool = .ok reqCool ∧
    reqCool.num_logos = 2 ∧
    (generate_brand 0 envPartial reqCool).map (fun r => r.logos.length) = .ok 1 ∧
    (1 : Nat) ≠ 2 :=
  ⟨rfl, rfl, rfl, by decide⟩

/-- C1 amended: the response's logo count equals `num_logos` whenever
the capability succeeds at every requested index or fails at every one
(including pipeline absent or broken); only a strictly partial success
yields fewer logos. -/
theorem generate_brand_logo_count (env : PipelineEnv) (req : BrandRequest)
    (jobId : Nat) (hfb : env.gen.fallbackExn = none) (h5 : req.num_logos ≤ 5)
    (hall : (∀ i, i < req.num_logos → (env.gen.genImage i).isSome) ∨
      env.gen.sdPipeline = false ∨ env.gen.pipelineReady = false ∨
      ∀ i, env.gen.genImage i = none) :
    ∃ resp, generate_brand jobId env req = .ok resp ∧
      resp.logos.length = req.num_logos := by
  rcases hall with hsome | hfail
  · by_cases hsd : env.gen.sdPipeline = true
    · by_cases hrdy : env.gen.pipelineReady = true
      · have hlen : ((List.range req.num_logos).filterMap env.gen.genImage).length =
            req.num_logos := filterMap_range_length env.gen.genImage req.num_logos hsome
        by_cases hemp :
            ((List.range req.num_logos).filterMap env.gen.genImage).isEmpty = true
        · -- only possible when num_logos = 0: the fallback also returns 0 logos
          obtain ⟨l, hl, hlen0, _⟩ := generate_fallback_logos_ok req h5
          have hgl : generate_logos env.gen req = .ok l := by
            unfold generate_logos
            rw [if_pos hsd, if_pos hrdy, if_pos hemp, hfb, hl]
          exact ⟨finalizeResponse jobId env req l, by simp [generate_brand, hgl],
            by simp [finalizeResponse, enhance_logos_length, hlen0]⟩
        · by_cases h4 : req.num_logos ≤ 4
          · obtain ⟨l, hl, hllen⟩ := buildSdLogos_some_of req
              ((List.range req.num_logos).filterMap env.gen.genImage) 0
              (by omega)
            have hgl : generate_logos env.gen req = .ok l := by
              unfold generate_logos
              rw [if_pos hsd, if_pos hrdy, if_neg hemp, hl]
            exact ⟨finalizeResponse jobId env req l, by simp [generate_brand, hgl],
              by simp [finalizeResponse, enhance_logos_length, hllen, hlen]⟩
          · -- num_logos = 5: the validation error at position 4 drops the whole
            -- batch to the placeholder fallback, which returns 5 logos
            have hnone : buildSdLogos req 0
                ((List.range req.num_logos).filterMap env.gen.genImage) = none :=
              buildSdLogos_none_of_overflow req _ 0 (by omega) (by omega)
            obtain ⟨l, hl, hlen0, _⟩ := generate_fallback_logos_ok req h5
            have hgl : generate_logos env.gen req = .ok l := by
              unfold generate_logos
              rw [if_pos hsd, if_pos hrdy, if_neg hemp, hnone, hfb, hl]
            exact ⟨finalizeResponse jobId env req l, by simp [generate_brand, hgl],
              by simp [finalizeResponse, enhance_logos_length, hlen0]⟩
      · obtain ⟨l, hl, hlen0, _⟩ := generate_fallback_logos_ok req h5
        have hgl : generate_logos env.gen req = .ok l := by
          rw [generate_logos_all_fail env.gen req (by simp [hrdy]), hfb, hl]
        exact ⟨finalizeResponse jobId env req l, by simp [generate_brand, hgl],
          by simp [finalizeResponse, enhance_logos_length, hlen0]⟩
    · obtain ⟨l, hl, hlen0, _⟩ := generate_fallback_logos_ok req h5
      have hgl : generate_logos env.gen req = .ok l := by
        rw [generate_logos_all_fail env.gen req (by simp [hsd]), hfb, hl]
      exact ⟨finalizeResponse jobId env req l, by simp [generate_brand, hgl],
        by simp [finalizeResponse, enhance_logos_length, hlen0]⟩
  · obtain ⟨l, hl, hlen0, _⟩ := generate_fallback_logos_ok req h5
    have hgl : generate_logos env.gen req = .ok l := by
      rw [generate_logos_all_fail env.gen req hfail, hfb, hl]
    exact ⟨finalizeResponse jobId env req l, by simp [generate_brand, hgl],
      by simp [finalizeResponse, enhance_logos_length, hlen0]⟩

theorem generate_brand_logo_count_witness :
    ∃ resp, generate_brand 3 envNoSD reqCool = .ok resp ∧
      resp.logos.length = reqCool.num_logos :=
  generate_brand_logo_count envNoSD reqCool 3 rfl (by decide)
    (Or.inr (Or.inl rfl))

end BrandCreator

namespace BrandCreator

/-- C9: a request with an empty (or whitespace-only) business name, or
a prompt of fewer than 3 words, is rejected by validation before the
handler body runs: the route answers with a 400-class error and the job
table is untouched (no job record, no job id). -/
theorem invalid_request_rejected_before_job (raw : BrandRequest) (jobId : Nat)
    (env : PipelineEnv) (t0 : JobTable)
    (hbad : pyStrip raw.business_name = "" ∨ (pyWords raw.prompt).length < 3) :
    (∃ msg, (routeGenerate raw jobId env t0).1 = .error (400, msg)) ∧
    (routeGenerate raw jobId env t0).2 = t0 := by
  cases hv : validateBrandRequest raw with
  | error e =>
      constructor
      · exact ⟨e, by simp [routeGenerate, hv]⟩
      · simp [routeGenerate, hv]
  | ok q =>
      exfalso
      have hg := validate_ok_guards raw q hv
      rcases hbad with hb | hb
      · exact hg.1 hb
      · exact hg.2 hb

theorem invalid_request_rejected_before_job_witness :
    (∃ msg, (routeGenerate rawEmptyName 1 envNoSD emptyTable).1 =
      .error (400, msg)) ∧
    (routeGenerate rawEmptyName 1 envNoSD emptyTable).2 = emptyTable :=
  invalid_request_rejected_before_job rawEmptyName 1 envNoSD emptyTable
    (Or.inl rfl)

/-- C3 counterexample: in a run whose stage 1 raises (every fallback
avenue exhausted), the job's reported progress reaches 0.1 and then the
terminal failed record stores no progress fraction at all, which the
status route reports as 0.0 — the reported sequence [0, 1/10, 0] is not
monotonically non-decreasing across the transition to the failed
record. -/
theorem progress_not_monotone_on_failure :
    progressTrace 0 envBoom reqCool emptyTable = [0, 1/10, 0] ∧
    ¬ List.Chain' (· ≤ ·) (progressTrace 0 envBoom reqCool emptyTable) ∧
    get_job_status (runTable 0 envBoom reqCool emptyTable) 0 =
      some { status := "failed", progress := none, current_step := none,
             error := some "boom" } := by
  have h1 : progressTrace 0 envBoom reqCool emptyTable = [0, 1/10, 0] := rfl
  refine ⟨h1, ?_, rfl⟩
  rw [h1]
  intro hch
  simp only [List.chain'_cons, List.chain'_singleton, and_true] at hch
  have h2 := hch.2
  norm_num at h2

/-- C3 amended: reported progress is within [0, 1] throughout and is
monotonically non-decreasing over the states in which the job record
has status "processing"; a successful run reports exactly the
checkpoints 0, 0.1, 0.4, 0.6, 0.8, 0.9, 1.0 and then removes the
record, so a subsequent status query finds nothing.  Monotonicity does
not extend over the transition to the terminal failed record, whose
progress field is dropped (reported as 0.0). -/
theorem progress_monotone_while_processing (jobId : Nat) (env : PipelineEnv)
    (req : BrandRequest) (t0 : JobTable) :
    List.Chain' (· ≤ ·) (processingTrace jobId env req t0) ∧
    (∀ p ∈ progressTrace jobId env req t0, 0 ≤ p ∧ p ≤ 1) ∧
    ∀ resp, generate_brand jobId env req = .ok resp →
      progressTrace jobId env req t0 = [0, 1/10, 2/5, 3/5, 4/5, 9/10, 1] ∧
      get_job_status (runTable jobId env req t0) jobId = none := by
  cases hgl : generate_logos env.gen req with
  | ok logos =>
      have hops : brandOps jobId env req =
          [.create jobId,
           .updateProgress jobId (1/10) "Generating logo concepts...",
           .updateProgress jobId (2/5) "Creating color palette...",
           .updateProgress jobId (3/5) "Selecting typography...",
           .updateProgress jobId (4/5) "Creating brand description...",
           .updateProgress jobId (9/10) "Enhancing images...",
           .updateProgress jobId 1 "Finalizing brand kit...",
           .finishSuccess jobId] := by
        simp [brandOps, hgl]
      have htr : progressTrace jobId env req t0 =
          [0, 1/10, 2/5, 3/5, 4/5, 9/10, 1] := by
        unfold progressTrace
        rw [hops]
        simp [statesAfter, applyOp, observedProgress]
      have hpr : processingTrace jobId env req t0 =
          [0, 1/10, 2/5, 3/5, 4/5, 9/10, 1] := by
        unfold processingTrace
        rw [hops]
        simp [statesAfter, applyOp, observedProgress]
      refine ⟨?_, ?_, ?_⟩
      · rw [hpr]
        norm_num [List.chain'_cons]
      · rw [htr]
        intro p hp
        simp only [List.mem_cons, List.not_mem_nil, or_false] at hp
        rcases hp with rfl | rfl | rfl | rfl | rfl | rfl | rfl <;>
          constructor <;> norm_num
      · intro resp _
        refine ⟨htr, ?_⟩
        unfold get_job_status runTable
        rw [hops]
        simp [applyOp]
  | error e =>
      have hops : brandOps jobId env req =
          [.create jobId,
           .updateProgress jobId (1/10) "Generating logo concepts...",
           .markFailed jobId e] := by
        simp [brandOps, hgl]
      have htr : progressTrace jobId env req t0 = [0, 1/10, 0] := by
        unfold progressTrace
        rw [hops]
        simp [statesAfter, applyOp, observedProgress]
      have hpr : processingTrace jobId env req t0 = [0, 1/10] := by
        unfold processingTrace
        rw [hops]
        simp [statesAfter, applyOp, observedProgress]
      refine ⟨?_, ?_, ?_⟩
      · rw [hpr]
        norm_num [List.chain'_cons]
      · rw [htr]
        intro p hp
        simp only [List.mem_cons, List.not_mem_nil, or_false] at hp
        rcases hp with rfl | rfl | rfl <;> constructor <;> norm_num
      · intro resp hresp
        simp [generate_brand, hgl] at hresp

theorem progress_monotone_while_processing_witness :
    List.Chain' (· ≤ ·) (processingTrace 0 envNoSD reqCool emptyTable) ∧
    progressTrace 0 envNoSD reqCool emptyTable =
      [0, 1/10, 2/5, 3/5, 4/5, 9/10, 1] ∧
    get_job_status (runTable 0 envNoSD reqCool emptyTable) 0 = none := by
  have h := progress_monotone_while_processing 0 envNoSD reqCool emptyTable
  have h2 := h.2.2 respCool (by rfl)
  exact ⟨h.1, h2.1, h2.2⟩

end BrandCreator
